import Mathlib

/-!
# Verification of the didcomm-rs core against its specification

This development shallowly embeds the code of the `didcomm-rs` repository
(`src/crypto/encryptor.rs`, `src/crypto/signer.rs`, `src/messages/message.rs`)
in Lean 4 and settles the frozen claims about it.

Conventions:
* machine bytes are `Nat` values `< 256`, byte strings are `List Nat`;
* 32-bit words are `Nat` values reduced `% 2^32` where overflow matters;
* fallible Rust code returns `Except Error _`;
* code that can panic (out-of-bounds indexing, `GenericArray::from_slice`
  with a wrong-sized slice, `todo!()`) returns a `POutcome` whose `panic`
  constructor marks divergence, which is never an `Error` return;
* external collaborators (serde JSON codec, base64url codec, the DID
  resolver, the ECDH-1PU key wrapping helper and the OS random source) are
  taken as explicit function parameters, so every theorem quantifies over
  their behaviour;
* types of this repository whose defining file is not under `src/`
  (the error enum, the JOSE/DIDComm headers, the `Jwe`/`Jws` wire objects,
  the helpers) are modelled from the specification and marked
  `Modelled from the spec:` in their doc comments.
-/

namespace Didcomm

/-- Modelled from the spec: the error taxonomy of §7 (the repository's
`Error` enum lives outside `src/`; kinds and payloads follow the spec table
and the `Error::...` constructors used by the code under `src/`). -/
inductive Error where
  | InvalidKeySize (msg : String)
  | NoJweRecipient
  | NoRotationData
  | JweParseError
  | JwsParseError
  | JwmHeaderParseError
  | PlugCryptoFailure
  | SerializationError
  | Generic (msg : String)
deriving DecidableEq, Repr

/-- Outcome of running a piece of Rust code that may return `Ok`, return
`Err`, or panic (diverge).  A panic is not an `Error` return. -/
inductive POutcome (α : Type) where
  | ok (val : α)
  | err (e : Error)
  | panic
deriving DecidableEq, Repr

/-- `MessageType` wire enum (§6). -/
inductive MessageType where
  | DidCommRaw
  | DidCommJws
  | DidCommJwe
  | DidCommForward
deriving DecidableEq, Repr

/-- `CryptoAlgorithm` enum from `src/crypto/encryptor.rs`. -/
inductive CryptoAlgorithm where
  | XC20P
  | A256GCM
  | A256CBC
deriving DecidableEq, Repr

/-- `SignatureAlgorithm` enum from `src/crypto/signer.rs`. -/
inductive SignatureAlgorithm where
  | EdDsa
  | Es256
  | Es256k
deriving DecidableEq, Repr

/-- `TryFrom<&String> for CryptoAlgorithm` (src/crypto/encryptor.rs):
recognized key-management names; unknown names fail with `JweParseError`. -/
def CryptoAlgorithm.try_from (incoming : String) : Except Error CryptoAlgorithm :=
  if incoming = "ECDH-1PU+A256KW" then .ok .A256GCM
  else if incoming = "ECDH-1PU+XC20PKW" then .ok .XC20P
  else .error .JweParseError

/-- `TryFrom<&String> for SignatureAlgorithm` (src/crypto/signer.rs). -/
def SignatureAlgorithm.try_from (value : String) : Except Error SignatureAlgorithm :=
  if value = "EdDSA" then .ok .EdDsa
  else if value = "ES256" then .ok .Es256
  else if value = "ES256K" then .ok .Es256k
  else .error .JwsParseError

/-! ## 32-bit word arithmetic and the ChaCha20 core

`rand_chacha`'s `ChaCha20Rng`, the `chacha20poly1305` crate's
`XChaCha20Poly1305` and the keystream they share are all built on the
ChaCha20 block function, modelled here on `Nat` with explicit `% 2^32`. -/

def add32 (a b : Nat) : Nat := (a + b) % 4294967296

def rotl32 (x n : Nat) : Nat := ((x <<< n) % 4294967296) ||| (x >>> (32 - n))

/-- One ChaCha quarter round acting on positions `i0 i1 i2 i3` of a 16-word
state. -/
def qround (s : List Nat) (i0 i1 i2 i3 : Nat) : List Nat :=
  let a := s.getD i0 0
  let b := s.getD i1 0
  let c := s.getD i2 0
  let d := s.getD i3 0
  let a := add32 a b
  let d := rotl32 (d ^^^ a) 16
  let c := add32 c d
  let b := rotl32 (b ^^^ c) 12
  let a := add32 a b
  let d := rotl32 (d ^^^ a) 8
  let c := add32 c d
  let b := rotl32 (b ^^^ c) 7
  (((s.set i0 a).set i1 b).set i2 c).set i3 d

/-- A ChaCha double round: four column rounds then four diagonal rounds. -/
def doubleRound (s : List Nat) : List Nat :=
  let s := qround s 0 4 8 12
  let s := qround s 1 5 9 13
  let s := qround s 2 6 10 14
  let s := qround s 3 7 11 15
  let s := qround s 0 5 10 15
  let s := qround s 1 6 11 12
  let s := qround s 2 7 8 13
  qround s 3 4 9 14

/-- Ten ChaCha double rounds (ChaCha20). -/
def chachaRounds (s : List Nat) : List Nat :=
  (List.range 10).foldl (fun st _ => doubleRound st) s

/-- The four ChaCha constants `"expand 32-byte k"`. -/
def chachaConsts : List Nat := [1634760805, 857760878, 2036477234, 1797285236]

/-- The ChaCha20 core: rounds plus the feed-forward addition of the input
state. -/
def chachaCore (s : List Nat) : List Nat :=
  List.zipWith add32 (chachaRounds s) s

/-- Little-endian bytes of a 32-bit word. -/
def leBytes32 (w : Nat) : List Nat :=
  [w % 256, w / 256 % 256, w / 65536 % 256, w / 16777216 % 256]

/-- Little-endian serialization of a word list. -/
def wordsToBytes (ws : List Nat) : List Nat := ws.flatMap leBytes32

/-- Little-endian 32-bit words of a byte string (groups of four bytes;
a trailing incomplete group is dropped, all callers pass multiples of 4). -/
def leWords : List Nat → List Nat
  | b0 :: b1 :: b2 :: b3 :: rest =>
      (b0 + 256 * b1 + 65536 * b2 + 16777216 * b3) :: leWords rest
  | _ => []

/-- The ChaCha20 block function for a 256-bit key given as 8 words, a block
counter and 3 nonce words (IETF layout; for the all-zero inputs used by
`ChaCha20Rng::from_seed(Default::default())` the original 64-bit-counter
layout coincides with it). -/
def chachaBlock (keyWords : List Nat) (counter : Nat) (nonceWords : List Nat) : List Nat :=
  wordsToBytes (chachaCore (chachaConsts ++ keyWords ++ [counter % 4294967296] ++ nonceWords))

/-! ## Claim C1: the content-encryption key of `Message::seal`

`src/messages/message.rs` lines 505-508:
```
let mut cek = [0u8; 32];
let mut rng = ChaCha20Rng::from_seed(Default::default());
rng.fill_bytes(&mut cek);
```
`Default::default()` for `[u8; 32]` is the all-zero array, so the RNG is
seeded with a constant and the 32 bytes filled into `cek` are the first 32
keystream bytes of ChaCha20 under the all-zero key, nonce and counter.  The
CEK-generation step takes no run-specific input at all. -/

/-- The content-encryption key generated by `Message::seal`: 32 bytes drawn
from `ChaCha20Rng::from_seed(Default::default())`. -/
def genCek : List Nat :=
  (chachaBlock (List.replicate 8 0) 0 (List.replicate 3 0)).take 32

/-! ## Poly1305 and XChaCha20-Poly1305 (the `chacha20poly1305` crate)

The `XC20P` arms of `CryptoAlgorithm::encryptor` / `decrypter` call
`XChaCha20Poly1305` from the `chacha20poly1305` crate (RFC 8439 plus the
XChaCha nonce extension).  The AEAD is modelled here in full. -/

/-- Interpret a byte string as a little-endian natural number. -/
def leNum : List Nat → Nat
  | [] => 0
  | b :: rest => b % 256 + 256 * leNum rest

/-- 16 little-endian bytes of a natural number. -/
def natToLe16 (n : Nat) : List Nat :=
  (List.range 16).map fun i => n / 256 ^ i % 256

/-- 8 little-endian bytes of a natural number. -/
def natToLe8 (n : Nat) : List Nat :=
  (List.range 8).map fun i => n / 256 ^ i % 256

/-- Poly1305 block accumulation (fuel-driven over 16-byte chunks). -/
def polyLoop : Nat → Nat → Nat → List Nat → Nat
  | _, acc, _, [] => acc
  | 0, acc, _, _ => acc
  | fuel + 1, acc, r, msg =>
      polyLoop fuel (((acc + leNum (msg.take 16 ++ [1])) * r) % (2 ^ 130 - 5)) r (msg.drop 16)

/-- Poly1305 MAC of `msg` under the 32-byte one-time key `otk`. -/
def poly1305 (otk msg : List Nat) : List Nat :=
  let r := leNum (otk.take 16) &&& 0x0ffffffc0ffffffc0ffffffc0fffffff
  let s := leNum (otk.drop 16)
  natToLe16 ((polyLoop msg.length 0 r msg + s) % 2 ^ 128)

/-- Zero padding of a byte string to the next 16-byte boundary. -/
def pad16 (l : List Nat) : List Nat :=
  List.replicate ((16 - l.length % 16) % 16) 0

/-- The byte string authenticated by the RFC 8439 AEAD construction. -/
def macData (aad ct : List Nat) : List Nat :=
  aad ++ pad16 aad ++ ct ++ pad16 ct ++ natToLe8 aad.length ++ natToLe8 ct.length

/-- HChaCha20: ChaCha rounds without the feed-forward, keyed output halves. -/
def hchacha (keyWords n16Words : List Nat) : List Nat :=
  let out := chachaRounds (chachaConsts ++ keyWords ++ n16Words)
  out.take 4 ++ out.drop 12

/-- The XChaCha20 subkey derived from a 32-byte key and the first 16 bytes
of the 24-byte nonce. -/
def xcSubkeyWords (key nonce : List Nat) : List Nat :=
  hchacha (leWords key) (leWords (nonce.take 16))

/-- The 96-bit IETF nonce used after XChaCha subkey derivation: four zero
bytes followed by the last 8 bytes of the 24-byte nonce. -/
def xcNonceWords (nonce : List Nat) : List Nat :=
  leWords ([0, 0, 0, 0] ++ nonce.drop 16)

/-- Byte `i` of the XChaCha20 encryption keystream (blocks from counter 1). -/
def xcKsByte (key nonce : List Nat) (i : Nat) : Nat :=
  (chachaBlock (xcSubkeyWords key nonce) (1 + i / 64) (xcNonceWords nonce)).getD (i % 64) 0

/-- The Poly1305 one-time key: first 32 bytes of keystream block 0. -/
def xcOtk (key nonce : List Nat) : List Nat :=
  (chachaBlock (xcSubkeyWords key nonce) 0 (xcNonceWords nonce)).take 32

/-- The XChaCha20-Poly1305 tag over associated data and ciphertext. -/
def xcTagBytes (key nonce aad ct : List Nat) : List Nat :=
  poly1305 (xcOtk key nonce) (macData aad ct)

/-! ### Generic counter-mode AEAD skeleton

Both AEADs used by the repository encrypt by XOR with a keystream and
append a 16-byte tag recomputed over the ciphertext on decryption; the
round-trip argument is shared. -/

/-- XOR of two byte strings (length of the shorter). -/
def xorBytes (a b : List Nat) : List Nat := List.zipWith (· ^^^ ·) a b

/-- Seal: ciphertext = message XOR keystream, with the tag appended. -/
def ctrSeal (ks : Nat → Nat) (tagf : List Nat → List Nat) (msg : List Nat) : List Nat :=
  xorBytes msg ((List.range msg.length).map ks) ++
    tagf (xorBytes msg ((List.range msg.length).map ks))

/-- Open: split the trailing 16-byte tag, recompute it over the ciphertext,
and XOR the keystream back on success; `none` models the crate's opaque
`aead::Error`. -/
def ctrOpen (ks : Nat → Nat) (tagf : List Nat → List Nat) (input : List Nat) :
    Option (List Nat) :=
  if input.length < 16 then none
  else if tagf (input.take (input.length - 16)) = input.drop (input.length - 16) then
    some (xorBytes (input.take (input.length - 16))
      ((List.range (input.take (input.length - 16)).length).map ks))
  else none

/-- XChaCha20-Poly1305 encryption (`aead.encrypt` of the crate). -/
def xcSeal (key nonce msg aad : List Nat) : List Nat :=
  ctrSeal (xcKsByte key nonce) (xcTagBytes key nonce aad) msg

/-- XChaCha20-Poly1305 decryption (`aead.decrypt` of the crate). -/
def xcOpen (key nonce input aad : List Nat) : Option (List Nat) :=
  ctrOpen (xcKsByte key nonce) (xcTagBytes key nonce aad) input

/-! ## AES-256 and AES-256-GCM (the `aes-gcm` crate) and AES-256-CBC
(`libaes`)

The `A256GCM` arms call `Aes256Gcm`; the `A256CBC` encryptor calls
`libaes::Cipher::cbc_encrypt` (PKCS#7 padding).  AES is modelled from
FIPS 197 with the S-box computed from its GF(2^8) definition. -/

/-- GF(2^8) doubling (AES field, reduction polynomial `x^8+x^4+x^3+x+1`). -/
def xtime (b : Nat) : Nat :=
  if 128 ≤ b then ((b * 2) % 256) ^^^ 27 else b * 2

/-- GF(2^8) multiply by 3. -/
def gmul3 (b : Nat) : Nat := xtime b ^^^ b

/-- GF(2^8) multiplication (Russian-peasant over 8 bits). -/
def gmul8Loop : Nat → Nat → Nat → Nat → Nat
  | 0, _, _, acc => acc
  | fuel + 1, a, b, acc =>
      gmul8Loop fuel (xtime a) (b / 2) (if b % 2 = 1 then acc ^^^ a else acc)

/-- GF(2^8) product of two bytes. -/
def gmul8 (a b : Nat) : Nat := gmul8Loop 8 (a % 256) (b % 256) 0

/-- GF(2^8) inverse via `b ^ 254` (with `0 ↦ 0`). -/
def gfInv (b : Nat) : Nat :=
  let sq := fun x => gmul8 x x
  let x3 := gmul8 (sq b) b
  let x7 := gmul8 (sq x3) b
  let x15 := gmul8 (sq x7) b
  let x31 := gmul8 (sq x15) b
  let x63 := gmul8 (sq x31) b
  let x127 := gmul8 (sq x63) b
  sq x127

/-- Rotate an 8-bit value left by `n`. -/
def rotl8 (x n : Nat) : Nat := ((x <<< n) % 256) ||| ((x % 256) >>> (8 - n))

/-- The AES S-box: affine transform of the GF(2^8) inverse. -/
def sbox (b : Nat) : Nat :=
  let i := gfInv b
  i ^^^ rotl8 i 1 ^^^ rotl8 i 2 ^^^ rotl8 i 3 ^^^ rotl8 i 4 ^^^ 99

/-- Key-schedule words are kept as 4-byte lists in byte order. -/
def subword (w : List Nat) : List Nat := w.map sbox

/-- Cyclic left rotation of a key-schedule word. -/
def rotword : List Nat → List Nat
  | a :: rest => rest ++ [a]
  | [] => []

/-- AES round constants (enough for AES-256's 7 uses). -/
def rcon (i : Nat) : Nat := [1, 2, 4, 8, 16, 32, 64].getD (i - 1) 0

/-- Split a byte string into 4-byte key-schedule words. -/
def toWords4 : List Nat → List (List Nat)
  | b0 :: b1 :: b2 :: b3 :: rest => [b0, b1, b2, b3] :: toWords4 rest
  | _ => []

/-- The AES-256 key schedule: 60 words expanded from the 8 key words. -/
def aesExpandKey (key : List Nat) : List (List Nat) :=
  (List.range 52).foldl
    (fun ws j =>
      let i := j + 8
      let temp := ws.getD (i - 1) []
      let temp :=
        if i % 8 = 0 then xorBytes (subword (rotword temp)) [rcon (i / 8), 0, 0, 0]
        else if i % 8 = 4 then subword temp
        else temp
      ws ++ [xorBytes (ws.getD (i - 8) []) temp])
    (toWords4 key)

/-- Bytes of round key `r` (flattened words `4r .. 4r+3`). -/
def roundKey (ws : List (List Nat)) (r : Nat) : List Nat :=
  ws.getD (4 * r) [] ++ ws.getD (4 * r + 1) [] ++ ws.getD (4 * r + 2) [] ++ ws.getD (4 * r + 3) []

/-- AES SubBytes on the 16-byte state (kept in input byte order). -/
def subBytes (st : List Nat) : List Nat := st.map sbox

/-- AES ShiftRows: byte `4c + r` comes from column `(c + r) % 4`. -/
def shiftRows (st : List Nat) : List Nat :=
  (List.range 16).map fun i =>
    let c := i / 4
    let r := i % 4
    st.getD (4 * ((c + r) % 4) + r) 0

/-- AES MixColumns. -/
def mixColumns (st : List Nat) : List Nat :=
  (List.range 4).flatMap fun c =>
    let a0 := st.getD (4 * c) 0
    let a1 := st.getD (4 * c + 1) 0
    let a2 := st.getD (4 * c + 2) 0
    let a3 := st.getD (4 * c + 3) 0
    [xtime a0 ^^^ gmul3 a1 ^^^ a2 ^^^ a3,
     a0 ^^^ xtime a1 ^^^ gmul3 a2 ^^^ a3,
     a0 ^^^ a1 ^^^ xtime a2 ^^^ gmul3 a3,
     gmul3 a0 ^^^ a1 ^^^ a2 ^^^ xtime a3]

/-- AES-256 block encryption of a 16-byte block. -/
def aesEncBlock (key block : List Nat) : List Nat :=
  let ws := aesExpandKey key
  let st := xorBytes block (roundKey ws 0)
  let st := (List.range 13).foldl
    (fun st r => xorBytes (mixColumns (shiftRows (subBytes st))) (roundKey ws (r + 1))) st
  xorBytes (shiftRows (subBytes st)) (roundKey ws 14)

/-- Big-endian value of a byte string. -/
def beNum : List Nat → Nat
  | [] => 0
  | b :: rest => b % 256 * 256 ^ rest.length + beNum rest

/-- 16 big-endian bytes of a natural number. -/
def natToBe16 (n : Nat) : List Nat :=
  (List.range 16).map fun i => n / 256 ^ (15 - i) % 256

/-- 8 big-endian bytes of a natural number. -/
def natToBe8 (n : Nat) : List Nat :=
  (List.range 8).map fun i => n / 256 ^ (7 - i) % 256

/-- 4 big-endian bytes of a natural number (the GCM counter field). -/
def natToBe4 (n : Nat) : List Nat :=
  (List.range 4).map fun i => n / 256 ^ (3 - i) % 256

/-- GF(2^128) multiplication in GCM's reflected representation (blocks as
big-endian 128-bit naturals, reduction constant `R = 0xe1 << 120`). -/
def gmul128Loop : Nat → Nat → Nat → Nat → Nat
  | 0, _, _, z => z
  | fuel + 1, x, v, z =>
      let z := if x / 2 ^ 127 % 2 = 1 then z ^^^ v else z
      let v := if v % 2 = 1 then (v >>> 1) ^^^ 0xe1000000000000000000000000000000 else v >>> 1
      gmul128Loop fuel ((x * 2) % 2 ^ 128) v z

/-- GF(2^128) product of two GCM blocks. -/
def gmul128 (x y : Nat) : Nat := gmul128Loop 128 x y 0

/-- GHASH accumulation over 16-byte chunks (fuel-driven). -/
def ghashLoop : Nat → Nat → Nat → List Nat → Nat
  | _, _, y, [] => y
  | 0, _, y, _ => y
  | fuel + 1, h, y, data =>
      ghashLoop fuel h (gmul128 (y ^^^ beNum (data.take 16 ++ pad16 (data.take 16))) h) (data.drop 16)

/-- GHASH of a byte string under hash subkey `h`. -/
def ghash (h : Nat) (data : List Nat) : Nat := ghashLoop data.length h 0 data

/-- Byte `i` of the AES-256-GCM encryption keystream: counter blocks start
at `inc32(J0)`, i.e. counter value 2 for a 96-bit IV. -/
def gcmKsByte (key iv : List Nat) (i : Nat) : Nat :=
  (aesEncBlock key (iv ++ natToBe4 (2 + i / 16))).getD (i % 16) 0

/-- The AES-256-GCM tag over associated data and ciphertext (full 16-byte
tag, as appended by the `aes-gcm` crate). -/
def gcmTagBytes (key iv aad ct : List Nat) : List Nat :=
  let h := beNum (aesEncBlock key (List.replicate 16 0))
  let lenBlock := natToBe8 (8 * aad.length) ++ natToBe8 (8 * ct.length)
  let s := ghash h (aad ++ pad16 aad ++ ct ++ pad16 ct ++ lenBlock)
  natToBe16 (beNum (aesEncBlock key (iv ++ [0, 0, 0, 1])) ^^^ s)

/-- AES-256-GCM encryption (`aead.encrypt` of the crate). -/
def gcmSeal (key iv msg aad : List Nat) : List Nat :=
  ctrSeal (gcmKsByte key iv) (gcmTagBytes key iv aad) msg

/-- AES-256-GCM decryption (`aead.decrypt` of the crate). -/
def gcmOpen (key iv input aad : List Nat) : Option (List Nat) :=
  ctrOpen (gcmKsByte key iv) (gcmTagBytes key iv aad) input

/-- PKCS#7-padded AES-256-CBC chaining loop (fuel-driven). -/
def cbcLoop : Nat → List Nat → List Nat → List Nat → List Nat
  | _, _, _, [] => []
  | 0, _, _, _ => []
  | fuel + 1, key, prev, data =>
      let blk := aesEncBlock key (xorBytes (data.take 16) prev)
      blk ++ cbcLoop fuel key blk (data.drop 16)

/-- `libaes::Cipher::cbc_encrypt`: PKCS#7 pad then CBC-chain AES-256. -/
def cbcEncrypt (key iv msg : List Nat) : List Nat :=
  let padLen := 16 - msg.length % 16
  let padded := msg ++ List.replicate padLen padLen
  cbcLoop padded.length key iv padded

/-! ## The `Cypher` closures of `src/crypto/encryptor.rs`

Each closure takes `(nonce, key, message, aad)`.  Conversions through
`GenericArray::from_slice` / `XNonce::from_slice` / `key.into()` panic on a
length mismatch; these are `POutcome.panic`, not `Error` returns.  The
crates' opaque `aead::Error` is wrapped as `Error::Generic(e.to_string())`,
and `e.to_string()` for `aead::Error` is the string `"aead::Error"`. -/

/-- Signature of the symmetric cypher closures (`SymmetricCypherMethod`). -/
def SymmetricCypherMethod : Type := List Nat → List Nat → List Nat → List Nat → POutcome (List Nat)

/-- `check_nonce` (src/crypto/encryptor.rs:135-140): rejects only nonces
shorter than `expected_len`. -/
def check_nonce (nonce : List Nat) (expected_len : Nat) : Except Error Unit :=
  if nonce.length < expected_len then .error .PlugCryptoFailure else .ok ()

/-- The XC20P arm of `CryptoAlgorithm::encryptor`. -/
def xc20pEncryptor : SymmetricCypherMethod := fun nonce key message aad =>
  match check_nonce nonce 24 with
  | .error e => .err e
  | .ok _ =>
    -- `XNonce::from_slice(nonce)` panics unless the slice is exactly 24 bytes
    if nonce.length ≠ 24 then .panic
    -- `XChaCha20Poly1305::new(key.into())` panics unless the key is 32 bytes
    else if key.length ≠ 32 then .panic
    -- `aead.encrypt` cannot fail for in-memory buffers
    else .ok (xcSeal key nonce message aad)

/-- The XC20P arm of `CryptoAlgorithm::decrypter`. -/
def xc20pDecrypter : SymmetricCypherMethod := fun nonce key message aad =>
  match check_nonce nonce 24 with
  | .error e => .err e
  | .ok _ =>
    -- in the decrypter the aead is built from the key first, then the nonce
    if key.length ≠ 32 then .panic
    else if nonce.length ≠ 24 then .panic
    else
      match xcOpen key nonce message aad with
      | some pt => .ok pt
      | none => .err (.Generic "aead::Error")

/-- The A256GCM arm of `CryptoAlgorithm::encryptor`: the nonce is truncated
to its first 12 bytes (`&nonce[..12]`). -/
def a256gcmEncryptor : SymmetricCypherMethod := fun nonce key message aad =>
  match check_nonce nonce 12 with
  | .error e => .err e
  | .ok _ =>
    if key.length ≠ 32 then .panic
    else .ok (gcmSeal key (nonce.take 12) message aad)

/-- The A256GCM arm of `CryptoAlgorithm::decrypter`. -/
def a256gcmDecrypter : SymmetricCypherMethod := fun nonce key message aad =>
  match check_nonce nonce 12 with
  | .error e => .err e
  | .ok _ =>
    if key.length ≠ 32 then .panic
    else
      match gcmOpen key (nonce.take 12) message aad with
      | some pt => .ok pt
      | none => .err (.Generic "aead::Error")

/-- The A256CBC arm of `CryptoAlgorithm::encryptor`: explicit key and IV
length checks, both reported as `InvalidKeySize`; no AEAD, AAD ignored. -/
def a256cbcEncryptor : SymmetricCypherMethod := fun nonce key message _aad =>
  if key.length ≠ 32 then .err (.InvalidKeySize "expected 256 bit (32 byte) key")
  else if nonce.length ≠ 16 then .err (.InvalidKeySize "expected 16 bytes nonce")
  else .ok (cbcEncrypt key nonce message)

/-- The A256CBC arm of `CryptoAlgorithm::decrypter` is `todo!()`, which
panics unconditionally. -/
def a256cbcDecrypter : SymmetricCypherMethod := fun _ _ _ _ => .panic

/-- `Cypher::encryptor` dispatch. -/
def CryptoAlgorithm.encryptor : CryptoAlgorithm → SymmetricCypherMethod
  | .XC20P => xc20pEncryptor
  | .A256GCM => a256gcmEncryptor
  | .A256CBC => a256cbcEncryptor

/-- `Cypher::decrypter` dispatch. -/
def CryptoAlgorithm.decrypter : CryptoAlgorithm → SymmetricCypherMethod
  | .XC20P => xc20pDecrypter
  | .A256GCM => a256gcmDecrypter
  | .A256CBC => a256cbcDecrypter

/-! ## The JWM data model

The JSON codec is an external collaborator; JSON values appearing in the
model (message bodies, parsed headers) use the small `Json` type below. -/

/-- A JSON value (stand-in for `serde_json::Value`). -/
inductive Json where
  | null
  | bool (b : Bool)
  | num (n : Int)
  | str (s : String)
  | arr (items : List Json)
  | obj (fields : List (String × Json))

/-- `Value::get(key)`: field lookup on objects, `none` otherwise. -/
def Json.get (j : Json) (key : String) : Option Json :=
  match j with
  | .obj fields => (fields.find? (fun p => p.1 = key)).map (fun p => p.2)
  | _ => none

/-- `Value::as_str`. -/
def Json.asStr : Json → Option String
  | .str s => some s
  | _ => none

/-- Modelled from the spec: the JOSE header (`JwmHeader`, defined outside
`src/`): fields of §3/§6 that the code under `src/` reads or writes; `epk`
is kept opaque. -/
structure JwmHeader where
  typ : MessageType := .DidCommRaw
  enc : Option String := none
  kid : Option String := none
  skid : Option String := none
  alg : Option String := none
  epk : Option String := none
  cty : Option String := none
deriving DecidableEq, Repr

instance : Inhabited JwmHeader := ⟨{}⟩

/-- Modelled from the spec: `JwmHeader::as_encrypted` — promotes `typ` and
records the content-encryption and key-management algorithm names of the
§4.A registry table. -/
def JwmHeader.as_encrypted (h : JwmHeader) (alg : CryptoAlgorithm) : JwmHeader :=
  match alg with
  | .XC20P => { h with typ := .DidCommJwe, enc := some "XC20P", alg := some "ECDH-1PU+XC20PKW" }
  | .A256GCM => { h with typ := .DidCommJwe, enc := some "A256GCM", alg := some "ECDH-1PU+A256KW" }
  | .A256CBC => { h with typ := .DidCommJwe, enc := some "A256CBC", alg := some "ECDH-1PU+A256KW" }

/-- Modelled from the spec: `JwmHeader::as_signed` — promotes `typ` and
records the signature algorithm name. -/
def JwmHeader.as_signed (h : JwmHeader) (alg : SignatureAlgorithm) : JwmHeader :=
  { h with typ := .DidCommJws,
           alg := some (match alg with
                        | .EdDsa => "EdDSA"
                        | .Es256 => "ES256"
                        | .Es256k => "ES256K") }

/-- Modelled from the spec: the DIDComm header (`DidCommHeader`, defined
outside `src/`).  The `id` of a fresh header comes from an external random
source and is modelled as the empty string; `from` is a Lean keyword, so
the field is spelled `from_`. -/
structure DidCommHeader where
  id : String := ""
  m_type : String := ""
  from_ : Option String := none
  to_ : List String := []
  thid : Option String := none
  pthid : Option String := none
  created_time : Option Nat := none
  expires_time : Option Nat := none
  from_prior : Option String := none
  other : List (String × String) := []
deriving DecidableEq, Repr

/-- Modelled from the spec: attachments are carried opaquely (§3); no code
under `src/` inspects them. -/
structure Attachment where
  data : String := ""
deriving DecidableEq, Repr

/-- Modelled from the spec: one entry of the JWE `recipients` collection. -/
structure Recipient where
  header : JwmHeader
  encrypted_key : String
deriving DecidableEq, Repr

/-- `Recipient::new`. -/
def Recipient.new (header : JwmHeader) (encrypted_key : String) : Recipient :=
  ⟨header, encrypted_key⟩

/-- Modelled from the spec: the `Jwe` wire object (§3); binary fields are
kept as byte strings, base64url being an external codec. -/
structure Jwe where
  protectedHeader : Option JwmHeader := none
  unprotected : Option JwmHeader := none
  recipients : Option (List Recipient) := none
  iv : Option (List Nat) := none
  ciphertext : List Nat := []
  tag : Option (List Nat) := none
deriving DecidableEq, Repr

/-- Modelled from the spec: one signature of a `Jws` wire object, with its
protected header already decoded. -/
structure JwsSignature where
  header : JwmHeader
  signature : List Nat
deriving DecidableEq, Repr

/-- Modelled from the spec: the `Jws` wire object (§3): decoded payload
bytes plus the signature list (a flattened JWS carries exactly one). -/
structure Jws where
  payload : List Nat
  signatures : List JwsSignature
deriving DecidableEq, Repr

/-- `Mediated` inner body (§3). -/
structure Mediated where
  next : String
  payload : List Nat
deriving DecidableEq, Repr

/-- `Mediated::new`. -/
def Mediated.new (next : String) : Mediated := ⟨next, []⟩

/-- `Mediated::with_payload`. -/
def Mediated.with_payload (m : Mediated) (p : List Nat) : Mediated := { m with payload := p }

/-- Serialization of a `Mediated` body as a JSON value (serde serializes
`Vec<u8>` as an array of numbers). -/
def Mediated.toJson (m : Mediated) : Json :=
  .obj [("next", .str m.next), ("payload", .arr (m.payload.map (fun b => Json.num (Int.ofNat b))))]

/-- The `Message` struct of `src/messages/message.rs`. -/
structure Message where
  jwm_header : JwmHeader := {}
  didcomm_header : DidCommHeader := {}
  recipients : Option (List Recipient) := none
  body : Json := .obj []
  serialize_flat_jwe : Bool := false
  serialize_flat_jws : Bool := false
  attachments : List Attachment := []

/-- `Message::new` (logger initialization is external and ignored). -/
def Message.new : Message := {}

/-- `Message::to` (the field and setter are spelled `to_`, `to` being a reserved token): appends the given entries, then removes every empty
string from the whole list. -/
def Message.to_ (m : Message) (dests : List String) : Message :=
  { m with didcomm_header :=
      { m.didcomm_header with to_ := (m.didcomm_header.to_ ++ dests).filter (fun e => e ≠ "") } }

/-- `Message::from` (named `from_did` here, `from` being a Lean keyword). -/
def Message.from_did (m : Message) (f : String) : Message :=
  { m with didcomm_header := { m.didcomm_header with from_ := some f } }

/-- `Message::typ`. -/
def Message.typ (m : Message) (typ : MessageType) : Message :=
  { m with jwm_header := { m.jwm_header with typ := typ } }

/-- `Message::kid` (both match arms store the given value). -/
def Message.kid (m : Message) (kid : String) : Message :=
  { m with jwm_header := { m.jwm_header with kid := some kid } }

/-- base64url alphabet (unpadded, as produced by the `base64_url` crate). -/
def b64Char (i : Nat) : Char :=
  "ABCDEFGHIJKLMNOPQRSTUVWXYZabcdefghijklmnopqrstuvwxyz0123456789-_".toList.getD i 'A'

/-- Unpadded base64url encoding of a byte string. -/
def b64EncodeChars : List Nat → List Char
  | [] => []
  | [a] => [b64Char (a / 4), b64Char (a % 4 * 16)]
  | [a, b] => [b64Char (a / 4), b64Char (a % 4 * 16 + b / 16), b64Char (b % 16 * 4)]
  | a :: b :: c :: rest =>
      b64Char (a / 4) :: b64Char (a % 4 * 16 + b / 16) :: b64Char (b % 16 * 4 + c / 64) ::
        b64Char (c % 64) :: b64EncodeChars rest

/-- `base64_url::encode`. -/
def base64urlEncode (bs : List Nat) : String := String.mk (b64EncodeChars bs)

/-- `Message::as_jwe` for the compiled (non-`resolve`) configuration: set
the JWE headers for `alg` and, when an explicit recipient key is given,
store it base64url-encoded in `kid`. -/
def Message.as_jwe (m : Message) (alg : CryptoAlgorithm)
    (recipient_public_key : Option (List Nat)) : Message :=
  let m := { m with jwm_header := m.jwm_header.as_encrypted alg }
  match recipient_public_key with
  | some key => { m with jwm_header := { m.jwm_header with kid := some (base64urlEncode key) } }
  | none => m

/-- `Message::as_flat_jwe`. -/
def Message.as_flat_jwe (m : Message) (alg : CryptoAlgorithm)
    (recipient_public_key : Option (List Nat)) : Message :=
  ({ m with serialize_flat_jwe := true } : Message).as_jwe alg recipient_public_key

/-- `Message::as_jws`. -/
def Message.as_jws (m : Message) (alg : SignatureAlgorithm) : Message :=
  { m with jwm_header := m.jwm_header.as_signed alg }

/-! ## Sealing (`Message::seal` and friends, src/messages/message.rs)

The ECDH-1PU key wrapping helper `helpers::encrypt_cek` is not under
`src/`; every theorem below therefore quantifies over an arbitrary
fallible function of its Rust signature.  Likewise the serde serialization
of the message, the fresh nonce and the AAD bytes used by the final
encryption step are external inputs and appear as parameters. -/

/-- The Rust signature of `helpers::encrypt_cek(&message, sender_private_key,
to_did, cek, recipient_public_key)`, returning the per-recipient header and
wrapped key (consumed via `Recipient::new`). -/
def EncryptCekFn : Type :=
  Message → List Nat → String → List Nat → Option (List Nat) → Except Error Recipient

/-- Modelled from the spec: `helpers::get_crypter_from_header` — reads the
key-management algorithm name from `jwm_header.alg` and parses it with the
`TryFrom` mapping of `src/crypto/encryptor.rs`; a missing name is a JWE
parse failure (§4.A: unknown names fail with a parse-error kind). -/
def get_crypter_from_header (header : JwmHeader) : Except Error CryptoAlgorithm :=
  match header.alg with
  | none => .error .JweParseError
  | some a => CryptoAlgorithm.try_from a

/-- The per-recipient loop of `Message::seal`: one `encrypt_cek` call and
one `Recipient` per entry of `public_keys.iter().enumerate().take(to_len)`,
paired here with the corresponding `to[i]`. -/
def encryptCekAll (f : EncryptCekFn) (m : Message) (senderKey cek : List Nat) :
    List (Option (List Nat) × String) → Except Error (List Recipient)
  | [] => .ok []
  | (pk, dest) :: rest =>
    match f m senderKey dest cek pk with
    | .error e => .error e
    | .ok r =>
      match encryptCekAll f m senderKey cek rest with
      | .error e => .error e
      | .ok rs => .ok (r :: rs)

/-- Modelled from the spec: `Message::encrypt` (§4.G steps 4-5) — encrypt
the externally serialized message bytes (`payload`) with the chosen cypher
under `key` and a fresh `nonce`, with the protected-header bytes as AAD,
and emit the JWE carrying the message's `recipients`. -/
def Message.encryptStep (m : Message) (cypher : SymmetricCypherMethod)
    (key nonce payload aad : List Nat) : POutcome Jwe :=
  match cypher nonce key payload aad with
  | .ok ct =>
      .ok { protectedHeader := some m.jwm_header, recipients := m.recipients,
            iv := some nonce, ciphertext := ct }
  | .err e => .err e
  | .panic => .panic

/-- `Message::seal` (src/messages/message.rs lines 485-535), with the
external inputs (`encrypt_cek`, fresh nonce, serialized payload, AAD) as
parameters. -/
def Message.seal (m : Message) (sender_private_key : List Nat)
    (recipient_public_keys : Option (List (Option (List Nat))))
    (encrypt_cek : EncryptCekFn) (nonce payload aad : List Nat) : POutcome Jwe :=
  if sender_private_key.length ≠ 32 then .err (.InvalidKeySize "!32")
  else
    let to_len := m.didcomm_header.to_.length
    let pkres : Except Error (List (Option (List Nat))) :=
      match recipient_public_keys with
      | some v =>
          if v.length ≠ to_len then
            .error (.Generic "`to` and `recipient_public_keys` must have same length")
          else .ok v
      | none => .ok (List.replicate to_len none)
    match pkres with
    | .error e => .err e
    | .ok public_keys =>
      -- generate content encryption key (see `genCek`: constant by the bug)
      let cek := genCek
      if to_len = 0 then .err .NoJweRecipient
      else if m.serialize_flat_jwe ∧ 1 < m.didcomm_header.to_.length then
        .err (.Generic "flat JWE serialization only supports a single `to`")
      else
        match encryptCekAll encrypt_cek m sender_private_key cek
            (public_keys.zip m.didcomm_header.to_) with
        | .error e => .err e
        | .ok recips =>
          let m2 := { m with recipients := some recips }
          match get_crypter_from_header m.jwm_header with
          | .error e => .err e
          | .ok alg => m2.encryptStep alg.encryptor cek nonce payload aad

/-- `Message::seal_pre_encrypted` (src/messages/message.rs lines 374-396):
builds the JWE around an externally produced ciphertext; when `recipients`
is absent it reads `d_header.to[0]`, which panics on an empty `to`. -/
def Message.seal_pre_encrypted (m : Message) (cyphertext : List Nat) : POutcome Jwe :=
  let d_header := m.didcomm_header
  let unprotected : JwmHeader := { skid := d_header.from_ }
  match m.recipients with
  | none =>
    match d_header.to_ with
    | [] => .panic
    | t0 :: _ =>
        .ok { protectedHeader := some m.jwm_header,
              unprotected := some { unprotected with kid := some t0 },
              recipients := none, ciphertext := cyphertext }
  | some rs =>
      .ok { protectedHeader := some m.jwm_header, unprotected := some unprotected,
            recipients := some rs, ciphertext := cyphertext }

/-- `Message::routed_by` (src/messages/message.rs lines 454-475): seal to
the original recipients, wrap the result in a `Mediated` body addressed to
the mediator, and seal again.  `self.didcomm_header.to[0]` is read before
the inner seal runs (the receiver of `with_payload` is evaluated first) and
panics on an empty `to`.  External inputs of the two seals and the JWE
serialization (`serJwe`) are parameters. -/
def Message.routed_by (m : Message) (sender_private_key : List Nat)
    (recipient_public_keys : Option (List (Option (List Nat))))
    (mediator_did : String) (mediator_public_key : Option (List Nat))
    (encrypt_cek : EncryptCekFn) (serJwe : Jwe → List Nat)
    (n1 p1 a1 n2 p2 a2 : List Nat) : POutcome Jwe :=
  let from_val := m.didcomm_header.from_.getD ""
  match get_crypter_from_header m.jwm_header with
  | .error e => .err e
  | .ok alg =>
    match m.didcomm_header.to_ with
    | [] => .panic
    | t0 :: _ =>
      match m.seal sender_private_key recipient_public_keys encrypt_cek n1 p1 a1 with
      | .err e => .err e
      | .panic => .panic
      | .ok inner =>
        let body := (Mediated.new t0).with_payload (serJwe inner)
        let outer := (((Message.new.to_ [mediator_did]).from_did from_val).as_jwe
            alg mediator_public_key).typ .DidCommForward
        let outer := { outer with body := body.toJson }
        outer.seal sender_private_key (some [mediator_public_key]) encrypt_cek n2 p2 a2

/-! ## The receive pipeline (`Message::receive`, src/messages/message.rs
lines 410-434)

Wire bytes are modelled as a `Wire` value: the shape the serde codec
(an external collaborator) recognizes in the incoming string. -/

/-- A received serialized object: plain DIDComm JSON, a JWE, or a JWS.
The `plain` payload carries the serialized field content; the two
`#[serde(skip)]` flags of `Message` are not part of it and deserialize to
`false`. -/
inductive Wire where
  | plain (m : Message)
  | jwe (j : Jwe)
  | jws (j : Jws)

/-- `Message::as_raw_json`: serde serialization of the message; the two
`#[serde(skip)]` flags are dropped (they deserialize back as `false`). -/
def Message.as_raw_json (m : Message) : Wire :=
  .plain { m with serialize_flat_jwe := false, serialize_flat_jws := false }

/-- Modelled from the spec: `helpers::get_message_type` — sniff `typ` from
the protected header when enveloped, from the top level when plain
(§4.I step 1). -/
def get_message_type : Wire → Except Error MessageType
  | .plain m => .ok m.jwm_header.typ
  | .jwe j =>
    match j.protectedHeader with
    | some h => .ok h.typ
    | none => .error .JweParseError
  | .jws j =>
    match j.signatures with
    | s :: _ => .ok s.header.typ
    | [] => .error .JwsParseError

/-- The Rust signature of a signature-validation closure
(`ValidationMethod`): key, message, signature. -/
def ValidationMethod : Type := List Nat → List Nat → List Nat → Except Error Bool

/-- Hex value of one character (`hex::decode` digit). -/
def hexVal (c : Char) : Option Nat :=
  if '0' ≤ c ∧ c ≤ '9' then some (c.toNat - 48)
  else if 'a' ≤ c ∧ c ≤ 'f' then some (c.toNat - 87)
  else if 'A' ≤ c ∧ c ≤ 'F' then some (c.toNat - 55)
  else none

/-- `hex::decode` on a character list. -/
def hexDecodeChars : List Char → Option (List Nat)
  | [] => some []
  | [_] => none
  | a :: b :: rest =>
    match hexVal a, hexVal b, hexDecodeChars rest with
    | some x, some y, some r => some ((16 * x + y) :: r)
    | _, _, _ => none

/-- `hex::decode` of a string. -/
def hexDecode (s : String) : Option (List Nat) := hexDecodeChars s.toList

/-- Modelled from the spec: `helpers::receive_jws` (§4.F Verify) — each
signature entry is checked: its algorithm name is parsed with the `TryFrom`
mapping of `src/crypto/signer.rs`, the verifying key is the supplied one
or, when none is supplied, is recovered from the hex-encoded `kid` of the
signature's header (the behaviour asserted by the repository tests
`jws_envelopes.rs::can_receive_flattened_jws_json` and
`message.rs::can_pass_explicit_signing_verification_keys`; the spec
sentence "an absent verifier key yields JwsParseError" holds only when no
key can be recovered).  If no entry validates the result is
`JwsParseError`, otherwise the payload is decoded into the JWM.  The curve
arithmetic (`validator`), the protected-header serialization (`serHeader`)
and the payload JSON decoding (`decodeMsg`) are external. -/
def receive_jws (jws : Jws) (signing_sender_public_key : Option (List Nat))
    (validator : SignatureAlgorithm → ValidationMethod)
    (serHeader : JwmHeader → List Nat)
    (decodeMsg : List Nat → Except Error Message) : Except Error Message :=
  let checkOne : JwsSignature → Bool := fun sv =>
    match sv.header.alg with
    | none => false
    | some algName =>
      match SignatureAlgorithm.try_from algName with
      | .error _ => false
      | .ok alg =>
        let keyOpt := match signing_sender_public_key with
          | some k => some k
          | none => sv.header.kid.bind hexDecode
        match keyOpt with
        | none => false
        | some key =>
          match validator alg key (serHeader sv.header ++ (46 :: jws.payload)) sv.signature with
          | .ok true => true
          | _ => false
  if jws.signatures.any checkOne then decodeMsg jws.payload
  else .error .JwsParseError

/-- `Message::receive` (src/messages/message.rs lines 410-434).  The JWE
opening (`helpers::receive_jwe`, not under `src/`) is a parameter returning
the decrypted wire object; the final `serde_json::from_str::<Message>`
yields the plain message, and fails with `SerializationError` when the
remaining bytes are not plain DIDComm JSON. -/
def Message.receive (incoming : Wire)
    (encryption_recipient_private_key : Option (List Nat))
    (encryption_sender_public_key : Option (List Nat))
    (signing_sender_public_key : Option (List Nat))
    (receive_jwe : Wire → List Nat → Option (List Nat) → Except Error Wire)
    (validator : SignatureAlgorithm → ValidationMethod)
    (serHeader : JwmHeader → List Nat)
    (decodeMsg : List Nat → Except Error Message) : Except Error Message :=
  match get_message_type incoming with
  | .error e => .error e
  | .ok t =>
    let afterJwe : Except Error Wire :=
      if t = .DidCommJwe then
        match encryption_recipient_private_key with
        | none => .error (.Generic "missing encryption recipient private key")
        | some k => receive_jwe incoming k encryption_sender_public_key
      else .ok incoming
    match afterJwe with
    | .error e => .error e
    | .ok w =>
      match get_message_type w with
      | .error e => .error e
      | .ok t2 =>
        if t2 = .DidCommJws then
          match w with
          | .jws j => receive_jws j signing_sender_public_key validator serHeader decodeMsg
          | _ => .error .SerializationError
        else
          match w with
          | .plain mv => .ok mv
          | _ => .error .SerializationError

/-! ## `Message::get_iv` (src/messages/message.rs lines 545-571)

The base64url codec and the JSON parser are external; the UTF-8 reading of
the input bytes is modelled as the identity on the byte content, and the
bytes of the extracted string are its characters (`str::len` and
`str::as_bytes` measure the same thing, so the 24-check and the returned
length agree exactly as in the source). -/

/-- Bytes of a string value (`str::as_bytes`). -/
def strBytes (s : String) : List Nat := s.toList.map Char.toNat

/-- The JSON-extraction step of `Message::get_iv`: parse the whole input
or, when it contains a `.` (compact form), the base64url-decoded part
before the first `.`. -/
def getIvJson (received : List Nat)
    (b64dec : List Nat → Except Error (List Nat))
    (parseJson : List Nat → Except Error Json) : Except Error Json :=
  match received.findIdx? (fun b => b = 46) with
  | some header_end =>
    match b64dec (received.take header_end) with
    | .error e => .error e
    | .ok decoded => parseJson decoded
  | none => parseJson received

/-- `Message::get_iv`: parse either a JSON object or the part of a compact
form before the first `.` (base64url-decoded), then extract `iv` and check
that it has exactly 24 characters. -/
def Message.get_iv (received : List Nat)
    (b64dec : List Nat → Except Error (List Nat))
    (parseJson : List Nat → Except Error Json) : Except Error (List Nat) :=
  match getIvJson received b64dec parseJson with
  | .error e => .error e
  | .ok json =>
    match json.get "iv" with
    | some iv =>
      match iv.asStr with
      | some t =>
        if t.length ≠ 24 then
          .error (.Generic ("IV [nonce] size is incorrect: " ++ toString t.length))
        else .ok (strBytes t)
      | none => .error (.Generic "wrong nonce format")
    | none => .error (.Generic "iv is not found in JOSE header")

/-! ## Helper lemmas -/

/-- Sequencing of outcomes (used to state encrypt-then-decrypt). -/
def POutcome.bind {α β : Type} : POutcome α → (α → POutcome β) → POutcome β
  | .ok v, f => f v
  | .err e, _ => .err e
  | .panic, _ => .panic

theorem natToLe16_length (n : Nat) : (natToLe16 n).length = 16 := by
  simp [natToLe16]

theorem natToBe16_length (n : Nat) : (natToBe16 n).length = 16 := by
  simp [natToBe16]

theorem poly1305_length (otk msg : List Nat) : (poly1305 otk msg).length = 16 := by
  simp [poly1305, natToLe16]

theorem xcTagBytes_length (key nonce aad ct : List Nat) :
    (xcTagBytes key nonce aad ct).length = 16 := by
  simp [xcTagBytes, poly1305_length]

theorem gcmTagBytes_length (key iv aad ct : List Nat) :
    (gcmTagBytes key iv aad ct).length = 16 := by
  simp [gcmTagBytes, natToBe16_length]

theorem xorBytes_length (a b : List Nat) : (xorBytes a b).length = min a.length b.length := by
  simp [xorBytes]

/-- XORing the same byte string twice is the identity (up to the length of
the mask). -/
theorem xorBytes_cancel (a b : List Nat) :
    xorBytes (xorBytes a b) b = a.take b.length := by
  induction a generalizing b with
  | nil => simp [xorBytes]
  | cons x xs ih =>
    cases b with
    | nil => simp [xorBytes]
    | cons y ys =>
      simp only [xorBytes, List.zipWith_cons_cons, List.take_succ_cons] at *
      rw [Nat.xor_assoc, Nat.xor_self, Nat.xor_zero]
      exact congrArg (x :: ·) (ih ys)

/-- Round trip of the shared counter-mode AEAD skeleton: opening a sealed
message returns the message, provided the tag function produces 16-byte
tags. -/
theorem ctrOpen_ctrSeal (ks : Nat → Nat) (tagf : List Nat → List Nat) (msg : List Nat)
    (htag : ∀ ct, (tagf ct).length = 16) :
    ctrOpen ks tagf (ctrSeal ks tagf msg) = some msg := by
  have hks : ((List.range msg.length).map ks).length = msg.length := by simp
  have hct : (xorBytes msg ((List.range msg.length).map ks)).length = msg.length := by
    simp [xorBytes_length, hks]
  have hgen : ∀ ct : List Nat, ct.length = msg.length →
      ctrOpen ks tagf (ct ++ tagf ct) = some (xorBytes ct ((List.range msg.length).map ks)) := by
    intro ct hc
    have hlen : (ct ++ tagf ct).length = ct.length + 16 := by simp [htag]
    have hsub : (ct ++ tagf ct).length - 16 = ct.length := by omega
    unfold ctrOpen
    rw [if_neg (by omega), hsub, List.take_left, List.drop_left, if_pos rfl, hc]
  rw [show ctrSeal ks tagf msg =
        xorBytes msg ((List.range msg.length).map ks) ++
          tagf (xorBytes msg ((List.range msg.length).map ks)) from rfl]
  rw [hgen _ hct, xorBytes_cancel, hks, List.take_length]

/-- The loop of `Message::seal` yields one `Recipient` per input pair. -/
theorem encryptCekAll_length (f : EncryptCekFn) (m : Message) (senderKey cek : List Nat)
    (pairs : List (Option (List Nat) × String)) (rs : List Recipient)
    (h : encryptCekAll f m senderKey cek pairs = .ok rs) : rs.length = pairs.length := by
  induction pairs generalizing rs with
  | nil =>
    simp only [encryptCekAll] at h
    cases h
    rfl
  | cons hd tl ih =>
    obtain ⟨pk, dest⟩ := hd
    simp only [encryptCekAll] at h
    cases hf : f m senderKey dest cek pk with
    | error e => rw [hf] at h; cases h
    | ok r =>
      rw [hf] at h
      cases hrec : encryptCekAll f m senderKey cek tl with
      | error e => rw [hrec] at h; cases h
      | ok rs' =>
        rw [hrec] at h
        cases h
        simp [ih rs' hrec]

/-! ## Claim theorems -/

set_option maxRecDepth 100000 in
/-- C1: `Message::seal` does not generate its content-encryption key from a
fresh cryptographic RNG.  The generation step
`ChaCha20Rng::from_seed(Default::default())` takes no run-specific input,
so `genCek` is a closed constant: every invocation of `seal`, on every
message, derives this same 32-byte CEK, contradicting the required
freshness and independence of two runs.  The constant is the well-known
first 32 keystream bytes of ChaCha20 under the all-zero key
(`76 b8 e0 ad ...`). -/
theorem claim1_cek_constant :
    genCek = [118, 184, 224, 173, 160, 241, 61, 144, 64, 93, 106, 229, 83, 134, 189, 40,
              189, 210, 25, 184, 160, 141, 237, 26, 168, 54, 239, 204, 139, 119, 13, 199] := by
  decide

/-! ### Concrete stand-ins for the external collaborators, used by the
closed theorems below -/

/-- A trivially succeeding key-wrapping function. -/
def exCek : EncryptCekFn := fun _ _ _ _ _ => .ok (Recipient.new {} "")

/-- A validator closure that accepts every signature. -/
def exVal : SignatureAlgorithm → ValidationMethod := fun _ _ _ _ => .ok true

/-- A JWE-opening function that returns its input unchanged. -/
def exRjwe : Wire → List Nat → Option (List Nat) → Except Error Wire := fun w _ _ => .ok w

/-- A header serializer producing no bytes. -/
def exSer : JwmHeader → List Nat := fun _ => []

/-- A JWE serializer producing no bytes. -/
def exSerJwe : Jwe → List Nat := fun _ => []

/-- A payload decoder producing the default message. -/
def exDec : List Nat → Except Error Message := fun _ => .ok Message.new

/-- C2: for both XC20P and A256GCM, decrypting the output of the
`CryptoAlgorithm::encryptor` closure with the `CryptoAlgorithm::decrypter`
closure under the same 32-byte key, nonce and AAD returns exactly the
original message. -/
theorem claim2_encrypt_decrypt (msg key aad n24 n12 : List Nat)
    (hk : key.length = 32) (h24 : n24.length = 24) (h12 : 12 ≤ n12.length) :
    POutcome.bind (CryptoAlgorithm.XC20P.encryptor n24 key msg aad)
      (fun ct => CryptoAlgorithm.XC20P.decrypter n24 key ct aad) = .ok msg ∧
    POutcome.bind (CryptoAlgorithm.A256GCM.encryptor n12 key msg aad)
      (fun ct => CryptoAlgorithm.A256GCM.decrypter n12 key ct aad) = .ok msg := by
  constructor
  · have hcn : check_nonce n24 24 = .ok () := by simp [check_nonce, h24]
    show POutcome.bind (xc20pEncryptor n24 key msg aad)
      (fun ct => xc20pDecrypter n24 key ct aad) = .ok msg
    unfold xc20pEncryptor
    rw [hcn, if_neg (by omega), if_neg (by omega)]
    show xc20pDecrypter n24 key (xcSeal key n24 msg aad) aad = .ok msg
    unfold xc20pDecrypter
    rw [hcn, if_neg (by omega), if_neg (by omega)]
    have hopen : xcOpen key n24 (xcSeal key n24 msg aad) aad = some msg := by
      unfold xcOpen xcSeal
      exact ctrOpen_ctrSeal _ _ _ (fun ct => xcTagBytes_length key n24 aad ct)
    rw [hopen]
  · have hcn : check_nonce n12 12 = .ok () := by simp [check_nonce]; omega
    show POutcome.bind (a256gcmEncryptor n12 key msg aad)
      (fun ct => a256gcmDecrypter n12 key ct aad) = .ok msg
    unfold a256gcmEncryptor
    rw [hcn, if_neg (by omega)]
    show a256gcmDecrypter n12 key (gcmSeal key (n12.take 12) msg aad) aad = .ok msg
    unfold a256gcmDecrypter
    rw [hcn, if_neg (by omega)]
    have hopen : gcmOpen key (n12.take 12) (gcmSeal key (n12.take 12) msg aad) aad = some msg := by
      unfold gcmOpen gcmSeal
      exact ctrOpen_ctrSeal _ _ _ (fun ct => gcmTagBytes_length key (n12.take 12) aad ct)
    rw [hopen]

/-- Witness for C2 at a concrete message, key and nonces. -/
theorem claim2_witness :
    POutcome.bind (CryptoAlgorithm.XC20P.encryptor (List.replicate 24 1) (List.replicate 32 7)
        [104, 105] [3])
      (fun ct => CryptoAlgorithm.XC20P.decrypter (List.replicate 24 1) (List.replicate 32 7)
        ct [3]) = .ok [104, 105] ∧
    POutcome.bind (CryptoAlgorithm.A256GCM.encryptor (List.replicate 12 2) (List.replicate 32 7)
        [104, 105] [3])
      (fun ct => CryptoAlgorithm.A256GCM.decrypter (List.replicate 12 2) (List.replicate 32 7)
        ct [3]) = .ok [104, 105] :=
  claim2_encrypt_decrypt [104, 105] (List.replicate 32 7) [3] (List.replicate 24 1)
    (List.replicate 12 2) (by simp) (by simp) (by simp)

/-- C3 counterexample: with an empty `to`, `seal` does **not** return
`NoJweRecipient` regardless of the other arguments — the sender-key length
check runs first, so a 31-byte key yields `InvalidKeySize("!32")`. -/
theorem claim3_counterexample :
    Message.new.seal (List.replicate 31 0) none exCek [] [] []
        = .err (.InvalidKeySize "!32") ∧
    Message.new.seal (List.replicate 31 0) none exCek [] [] []
        ≠ .err .NoJweRecipient := by
  constructor
  · rfl
  · intro h
    have h2 : (POutcome.err (Error.InvalidKeySize "!32") : POutcome Jwe)
        = .err .NoJweRecipient := by
      calc (POutcome.err (Error.InvalidKeySize "!32") : POutcome Jwe)
          = Message.new.seal (List.replicate 31 0) none exCek [] [] [] := rfl
        _ = .err .NoJweRecipient := h
    simp at h2

/-- C3 as amended: for every message with an empty `to`, provided the
sender key is 32 bytes long and `recipient_public_keys`, when supplied, is
also empty (otherwise the earlier length checks fire with `InvalidKeySize`
or a `Generic` length-mismatch error), `seal` returns `NoJweRecipient`. -/
theorem claim3_amended (m : Message) (k : List Nat)
    (pks : Option (List (Option (List Nat)))) (f : EncryptCekFn) (n p a : List Nat)
    (h0 : m.didcomm_header.to_ = []) (hk : k.length = 32)
    (hp : ∀ v, pks = some v → v = []) :
    m.seal k pks f n p a = .err .NoJweRecipient := by
  have hlen : m.didcomm_header.to_.length = 0 := by simp [h0]
  unfold Message.seal
  rw [if_neg (by omega)]
  cases pks with
  | none => simp [hlen]
  | some v =>
    have hv := hp v rfl
    subst hv
    simp [hlen]

/-- Witness for C3 as amended. -/
theorem claim3_witness :
    Message.new.seal (List.replicate 32 0) none exCek [] [] [] = .err .NoJweRecipient :=
  claim3_amended Message.new (List.replicate 32 0) none exCek [] [] [] rfl (by simp)
    (fun v h => by cases h)

/-- The validated recipient-key list of `Message::seal` always has length
`to_len`. -/
theorem seal_publicKeys_length (pks : Option (List (Option (List Nat)))) (to_len : Nat)
    (v : List (Option (List Nat)))
    (h : (match pks with
          | some w =>
              if w.length ≠ to_len then
                Except.error (Error.Generic "`to` and `recipient_public_keys` must have same length")
              else Except.ok w
          | none => Except.ok (List.replicate to_len none)) = Except.ok v) :
    v.length = to_len := by
  cases pks with
  | none =>
    simp only [] at h
    cases h
    simp
  | some w =>
    simp only [] at h
    split at h
    · cases h
    · cases h
      omega

/-- Projection used to state success of an outcome at a concrete input. -/
def POutcome.getOk {α : Type} (d : α) : POutcome α → α
  | .ok v => v
  | .err _ => d
  | .panic => d

/-- C4: whenever `Message::seal` succeeds, the produced JWE carries a
`recipients` collection with exactly `to.len()` entries (one `Recipient`
per loop iteration over the validated key list), and a message flagged for
flat JWE serialization can only seal successfully when `to.len() == 1`
(an empty `to` is `NoJweRecipient`, more than one `to` is rejected). -/
theorem claim4_recipients (m : Message) (k : List Nat)
    (pks : Option (List (Option (List Nat)))) (f : EncryptCekFn) (n p a : List Nat)
    (out : Jwe) (h : m.seal k pks f n p a = .ok out) :
    (∃ rs, out.recipients = some rs ∧ rs.length = m.didcomm_header.to_.length) ∧
    (m.serialize_flat_jwe = true → m.didcomm_header.to_.length = 1) := by
  simp only [Message.seal] at h
  split at h
  · cases h
  · split at h
    · cases h
    · rename_i public_keys heqpk
      split at h
      · cases h
      · split at h
        · cases h
        · rename_i hne0 hnflat
          split at h
          · cases h
          · rename_i recips heqrec
            split at h
            · cases h
            · rename_i alg heqalg
              simp only [Message.encryptStep] at h
              split at h
              · rename_i ct heqct
                cases h
                constructor
                · refine ⟨recips, rfl, ?_⟩
                  have hpl : public_keys.length = m.didcomm_header.to_.length :=
                    seal_publicKeys_length pks _ public_keys heqpk
                  have hlen := encryptCekAll_length f m k genCek
                    (public_keys.zip m.didcomm_header.to_) recips heqrec
                  rw [hlen, List.length_zip, hpl, Nat.min_self]
                · intro hflat
                  rw [hflat] at hnflat
                  simp at hnflat
                  omega
              · cases h
              · cases h

/-- Witness for C4: a concrete successful seal with one recipient. -/
def exSealMsg : Message := (Message.new.to_ ["did:a"]).as_jwe .XC20P none

set_option maxRecDepth 20000 in
/-- Witness for C4 at the concrete sealed message. -/
theorem claim4_witness :
    (∃ rs, ((exSealMsg.seal (List.replicate 32 0) none exCek (List.replicate 24 0) [1]
        []).getOk {}).recipients = some rs ∧ rs.length = exSealMsg.didcomm_header.to_.length) ∧
    (exSealMsg.serialize_flat_jwe = true → exSealMsg.didcomm_header.to_.length = 1) :=
  claim4_recipients exSealMsg (List.replicate 32 0) none exCek (List.replicate 24 0) [1] []
    ((exSealMsg.seal (List.replicate 32 0) none exCek (List.replicate 24 0) [1] []).getOk {})
    (by rfl)

/-- C5 counterexample: (i) the XC20P encryptor with a 31-byte key panics
(`key.into()` has no length check) instead of returning `InvalidKeySize`;
(ii) the A256CBC encryptor reports a short (8-byte) nonce as
`InvalidKeySize`, not `PlugCryptoFailure`. -/
theorem claim5_counterexample :
    CryptoAlgorithm.XC20P.encryptor (List.replicate 24 0) (List.replicate 31 0) [] []
        = .panic ∧
    CryptoAlgorithm.A256CBC.encryptor (List.replicate 8 0) (List.replicate 32 0) [] []
        = .err (.InvalidKeySize "expected 16 bytes nonce") := by
  constructor
  · rfl
  · rfl

set_option maxRecDepth 8000 in
/-- C5 as amended: key length is checked only by the A256CBC encryptor
(whose key **and** nonce failures are both `InvalidKeySize`); the XC20P and
A256GCM closures — encryptor and decrypter alike — pass the key unchecked
to the primitive, so a key of any length other than 32 bytes causes a
panic, not an `InvalidKeySize` error; a nonce shorter than required yields
`PlugCryptoFailure` for both the XC20P and the A256GCM closures; AEAD
failures of the primitive library (tag mismatch on XC20P and on A256GCM
decryption) are returned as `Generic` errors carrying the vendor message
`"aead::Error"`; and the A256CBC decrypter is `todo!()`, i.e. it panics
unconditionally. -/
theorem claim5_amended
    (n1 k1 m1 a1 : List Nat) (h1 : n1.length < 24)
    (n2 k2 m2 a2 : List Nat) (h2n : ¬ n2.length < 24) (h2k : k2.length ≠ 32)
    (n3 k3 m3 a3 : List Nat) (h3n : 12 ≤ n3.length) (h3k : k3.length ≠ 32)
    (n4 k4 m4 a4 : List Nat) (h4 : k4.length ≠ 32)
    (n5 k5 m5 a5 : List Nat) (h5k : k5.length = 32) (h5n : n5.length ≠ 16)
    (n6 k6 s6 a6 : List Nat) (h6n : n6.length = 24) (h6k : k6.length = 32)
    (h6len : 16 ≤ s6.length)
    (h6tag : xcTagBytes k6 n6 a6 (s6.take (s6.length - 16)) ≠ s6.drop (s6.length - 16))
    (n7 k7 m7 a7 : List Nat)
    (n8 k8 m8 a8 : List Nat) (h8 : n8.length < 12)
    (n9 k9 s9 a9 : List Nat) (h9n : 12 ≤ n9.length) (h9k : k9.length = 32)
    (h9len : 16 ≤ s9.length)
    (h9tag : gcmTagBytes k9 (n9.take 12) a9 (s9.take (s9.length - 16))
        ≠ s9.drop (s9.length - 16)) :
    (CryptoAlgorithm.XC20P.encryptor n1 k1 m1 a1 = .err .PlugCryptoFailure ∧
     CryptoAlgorithm.XC20P.decrypter n1 k1 m1 a1 = .err .PlugCryptoFailure) ∧
    (CryptoAlgorithm.XC20P.encryptor n2 k2 m2 a2 = .panic ∧
     CryptoAlgorithm.XC20P.decrypter n2 k2 m2 a2 = .panic) ∧
    (CryptoAlgorithm.A256GCM.encryptor n3 k3 m3 a3 = .panic ∧
     CryptoAlgorithm.A256GCM.decrypter n3 k3 m3 a3 = .panic) ∧
    CryptoAlgorithm.A256CBC.encryptor n4 k4 m4 a4
        = .err (.InvalidKeySize "expected 256 bit (32 byte) key") ∧
    CryptoAlgorithm.A256CBC.encryptor n5 k5 m5 a5
        = .err (.InvalidKeySize "expected 16 bytes nonce") ∧
    CryptoAlgorithm.XC20P.decrypter n6 k6 s6 a6 = .err (.Generic "aead::Error") ∧
    CryptoAlgorithm.A256CBC.decrypter n7 k7 m7 a7 = .panic ∧
    (CryptoAlgorithm.A256GCM.encryptor n8 k8 m8 a8 = .err .PlugCryptoFailure ∧
     CryptoAlgorithm.A256GCM.decrypter n8 k8 m8 a8 = .err .PlugCryptoFailure) ∧
    CryptoAlgorithm.A256GCM.decrypter n9 k9 s9 a9 = .err (.Generic "aead::Error") := by
  refine ⟨⟨?_, ?_⟩, ⟨?_, ?_⟩, ⟨?_, ?_⟩, ?_, ?_, ?_, rfl, ⟨?_, ?_⟩, ?_⟩
  · show xc20pEncryptor n1 k1 m1 a1 = .err .PlugCryptoFailure
    unfold xc20pEncryptor
    simp [check_nonce, h1]
  · show xc20pDecrypter n1 k1 m1 a1 = .err .PlugCryptoFailure
    unfold xc20pDecrypter
    simp [check_nonce, h1]
  · show xc20pEncryptor n2 k2 m2 a2 = .panic
    unfold xc20pEncryptor
    have hcn : check_nonce n2 24 = .ok () := by simp [check_nonce, h2n]
    rw [hcn]
    by_cases hn : n2.length = 24
    · rw [if_neg (by omega), if_pos h2k]
    · rw [if_pos hn]
  · show xc20pDecrypter n2 k2 m2 a2 = .panic
    unfold xc20pDecrypter
    have hcn : check_nonce n2 24 = .ok () := by simp [check_nonce, h2n]
    rw [hcn, if_pos h2k]
  · show a256gcmEncryptor n3 k3 m3 a3 = .panic
    unfold a256gcmEncryptor
    have hcn : check_nonce n3 12 = .ok () := by simp [check_nonce]; omega
    rw [hcn, if_pos h3k]
  · show a256gcmDecrypter n3 k3 m3 a3 = .panic
    unfold a256gcmDecrypter
    have hcn : check_nonce n3 12 = .ok () := by simp [check_nonce]; omega
    rw [hcn, if_pos h3k]
  · show a256cbcEncryptor n4 k4 m4 a4 = .err (.InvalidKeySize "expected 256 bit (32 byte) key")
    unfold a256cbcEncryptor
    rw [if_pos h4]
  · show a256cbcEncryptor n5 k5 m5 a5 = .err (.InvalidKeySize "expected 16 bytes nonce")
    unfold a256cbcEncryptor
    rw [if_neg (by omega), if_pos h5n]
  · show xc20pDecrypter n6 k6 s6 a6 = .err (.Generic "aead::Error")
    unfold xc20pDecrypter
    have hcn : check_nonce n6 24 = .ok () := by simp [check_nonce, h6n]
    rw [hcn, if_neg (by omega), if_neg (by omega)]
    have hopen : xcOpen k6 n6 s6 a6 = none := by
      unfold xcOpen ctrOpen
      rw [if_neg (by omega), if_neg h6tag]
    rw [hopen]
  · show a256gcmEncryptor n8 k8 m8 a8 = .err .PlugCryptoFailure
    unfold a256gcmEncryptor
    simp [check_nonce, h8]
  · show a256gcmDecrypter n8 k8 m8 a8 = .err .PlugCryptoFailure
    unfold a256gcmDecrypter
    simp [check_nonce, h8]
  · show a256gcmDecrypter n9 k9 s9 a9 = .err (.Generic "aead::Error")
    unfold a256gcmDecrypter
    have hcn : check_nonce n9 12 = .ok () := by simp [check_nonce]; omega
    rw [hcn, if_neg (by omega)]
    have hopen : gcmOpen k9 (n9.take 12) s9 a9 = none := by
      unfold gcmOpen ctrOpen
      rw [if_neg (by omega), if_neg h9tag]
    rw [hopen]

set_option maxRecDepth 100000 in
/-- Witness for C5 as amended, at concrete inputs for every conjunct. -/
theorem claim5_witness :
    (CryptoAlgorithm.XC20P.encryptor [] [] [] [] = .err .PlugCryptoFailure ∧
     CryptoAlgorithm.XC20P.decrypter [] [] [] [] = .err .PlugCryptoFailure) ∧
    (CryptoAlgorithm.XC20P.encryptor (List.replicate 24 0) [] [] [] = .panic ∧
     CryptoAlgorithm.XC20P.decrypter (List.replicate 24 0) [] [] [] = .panic) ∧
    (CryptoAlgorithm.A256GCM.encryptor (List.replicate 12 0) [] [] [] = .panic ∧
     CryptoAlgorithm.A256GCM.decrypter (List.replicate 12 0) [] [] [] = .panic) ∧
    CryptoAlgorithm.A256CBC.encryptor [] [] [] []
        = .err (.InvalidKeySize "expected 256 bit (32 byte) key") ∧
    CryptoAlgorithm.A256CBC.encryptor [] (List.replicate 32 0) [] []
        = .err (.InvalidKeySize "expected 16 bytes nonce") ∧
    CryptoAlgorithm.XC20P.decrypter (List.replicate 24 0) (List.replicate 32 0)
        (List.replicate 16 0) [] = .err (.Generic "aead::Error") ∧
    CryptoAlgorithm.A256CBC.decrypter [] [] [] [] = .panic ∧
    (CryptoAlgorithm.A256GCM.encryptor [] [] [] [] = .err .PlugCryptoFailure ∧
     CryptoAlgorithm.A256GCM.decrypter [] [] [] [] = .err .PlugCryptoFailure) ∧
    CryptoAlgorithm.A256GCM.decrypter (List.replicate 12 0) (List.replicate 32 0)
        (List.replicate 16 0) [] = .err (.Generic "aead::Error") :=
  claim5_amended
    [] [] [] [] (by decide)
    (List.replicate 24 0) [] [] [] (by simp) (by simp)
    (List.replicate 12 0) [] [] [] (by simp) (by simp)
    [] [] [] [] (by simp)
    [] (List.replicate 32 0) [] [] (by simp) (by simp)
    (List.replicate 24 0) (List.replicate 32 0) (List.replicate 16 0) [] (by simp) (by simp)
    (by simp) (by decide)
    [] [] [] []
    [] [] [] [] (by decide)
    (List.replicate 12 0) (List.replicate 32 0) (List.replicate 16 0) [] (by simp) (by simp)
    (by simp) (by decide)

/-- A JWS signature entry whose `kid` carries the hex-encoded verifying
key (as produced by `.kid(&hex::encode(verifying_key))` in the repository
tests). -/
def exJwsSig : JwsSignature :=
  { header := { typ := .DidCommJws, alg := some "EdDSA", kid := some "00" }, signature := [] }

/-- A flattened JWS carrying `exJwsSig`. -/
def exJws : Jws := { payload := [], signatures := [exJwsSig] }

/-- C6 counterexample: a JWS received with **no** verifier key does not
fail with `JwsParseError` when the signature's `kid` header carries the
(hex-encoded) signing key — the key is recovered from `kid` and, the
signature validating, `receive` returns the decoded JWM (the behaviour
asserted by test `jws_envelopes.rs::can_receive_flattened_jws_json`, which
passes `None` for `signing_sender_public_key` and expects success). -/
theorem claim6_counterexample :
    Message.receive (.jws exJws) none none none exRjwe exVal exSer exDec = .ok Message.new ∧
    Message.receive (.jws exJws) none none none exRjwe exVal exSer exDec
        ≠ .error .JwsParseError := by
  have hok : Message.receive (.jws exJws) none none none exRjwe exVal exSer exDec
      = .ok Message.new := rfl
  exact ⟨hok, fun h => Except.noConfusion (hok.symm.trans h)⟩

/-- C6 as amended: in `receive_jws`, (i) a supplied verifier key whose
validation fails yields `JwsParseError`; (ii) an absent verifier key yields
`JwsParseError` **provided** no key can be recovered from the signature's
`kid` header; (iii) a supplied verifier key whose validation succeeds
returns the decoded JWM. -/
theorem claim6_amended
    (jws1 : Jws) (sv1 : JwsSignature) (h1s : jws1.signatures = [sv1]) (key1 : List Nat)
    (validator1 : SignatureAlgorithm → ValidationMethod) (ser1 : JwmHeader → List Nat)
    (dec1 : List Nat → Except Error Message)
    (h1v : ∀ alg, validator1 alg key1 (ser1 sv1.header ++ (46 :: jws1.payload)) sv1.signature
        = .ok false)
    (jws2 : Jws) (sv2 : JwsSignature) (h2s : jws2.signatures = [sv2])
    (h2k : sv2.header.kid.bind hexDecode = none)
    (validator2 : SignatureAlgorithm → ValidationMethod) (ser2 : JwmHeader → List Nat)
    (dec2 : List Nat → Except Error Message)
    (jws3 : Jws) (sv3 : JwsSignature) (h3s : jws3.signatures = [sv3])
    (name3 : String) (h3a : sv3.header.alg = some name3)
    (alg3 : SignatureAlgorithm) (h3p : SignatureAlgorithm.try_from name3 = .ok alg3)
    (key3 : List Nat) (validator3 : SignatureAlgorithm → ValidationMethod)
    (ser3 : JwmHeader → List Nat) (dec3 : List Nat → Except Error Message) (m3 : Message)
    (h3v : validator3 alg3 key3 (ser3 sv3.header ++ (46 :: jws3.payload)) sv3.signature
        = .ok true)
    (h3d : dec3 jws3.payload = .ok m3) :
    receive_jws jws1 (some key1) validator1 ser1 dec1 = .error .JwsParseError ∧
    receive_jws jws2 none validator2 ser2 dec2 = .error .JwsParseError ∧
    receive_jws jws3 (some key3) validator3 ser3 dec3 = .ok m3 := by
  refine ⟨?_, ?_, ?_⟩
  · unfold receive_jws
    rw [h1s]
    simp only [List.any_cons, List.any_nil, Bool.or_false]
    cases halg : sv1.header.alg with
    | none => simp
    | some nm =>
      cases htf : SignatureAlgorithm.try_from nm with
      | error e => simp [htf]
      | ok alg => simp [htf, h1v alg]
  · unfold receive_jws
    rw [h2s]
    simp only [List.any_cons, List.any_nil, Bool.or_false]
    cases halg : sv2.header.alg with
    | none => simp
    | some nm =>
      cases htf : SignatureAlgorithm.try_from nm with
      | error e => simp [htf]
      | ok alg => simp [htf, h2k]
  · unfold receive_jws
    rw [h3s]
    simp only [List.any_cons, List.any_nil, Bool.or_false]
    simp [h3a, h3p, h3v, h3d]

/-- Witness for C6 as amended, at concrete JWS inputs for all three
conjuncts. -/
theorem claim6_witness :
    receive_jws exJws (some [5]) (fun _ _ _ _ => .ok false) exSer exDec
        = .error .JwsParseError ∧
    receive_jws { payload := [], signatures := [{ header := {}, signature := [] }] } none
        exVal exSer exDec = .error .JwsParseError ∧
    receive_jws exJws (some [5]) exVal exSer exDec = .ok Message.new :=
  claim6_amended
    exJws exJwsSig rfl [5] (fun _ _ _ _ => .ok false) exSer exDec (fun _ => rfl)
    { payload := [], signatures := [{ header := {}, signature := [] }] }
    { header := {}, signature := [] } rfl rfl exVal exSer exDec
    exJws exJwsSig rfl "EdDSA" rfl .EdDsa rfl [5] exVal exSer exDec Message.new rfl rfl

/-- The byte length of a string equals its length (ASCII model). -/
theorem strBytes_length (s : String) : (strBytes s).length = s.length := by
  simp [strBytes]

/-- `Message::get_iv` after a successful JSON extraction. -/
theorem get_iv_of_json (received : List Nat) (b64dec : List Nat → Except Error (List Nat))
    (parseJson : List Nat → Except Error Json) (json : Json)
    (h : getIvJson received b64dec parseJson = .ok json) :
    Message.get_iv received b64dec parseJson =
      (match json.get "iv" with
       | some iv =>
         match iv.asStr with
         | some t =>
           if t.length ≠ 24 then
             .error (.Generic ("IV [nonce] size is incorrect: " ++ toString t.length))
           else .ok (strBytes t)
         | none => .error (.Generic "wrong nonce format")
       | none => .error (.Generic "iv is not found in JOSE header")) := by
  unfold Message.get_iv
  rw [h]

/-- C7: (i) every `Ok` result of `Message::get_iv` — object JSON or compact
form alike — has length exactly 24; (ii) whenever the extracted `iv` string
has any other length, `get_iv` fails with the size error
`Generic("IV [nonce] size is incorrect: <len>")`. -/
theorem claim7_get_iv
    (received1 : List Nat) (b1 : List Nat → Except Error (List Nat))
    (p1 : List Nat → Except Error Json) (v : List Nat)
    (h1 : Message.get_iv received1 b1 p1 = .ok v)
    (received2 : List Nat) (b2 : List Nat → Except Error (List Nat))
    (p2 : List Nat → Except Error Json) (json2 : Json) (t : String)
    (h2j : getIvJson received2 b2 p2 = .ok json2)
    (h2g : json2.get "iv" = some (.str t)) (h2l : t.length ≠ 24) :
    v.length = 24 ∧
    Message.get_iv received2 b2 p2
        = .error (.Generic ("IV [nonce] size is incorrect: " ++ toString t.length)) := by
  constructor
  · unfold Message.get_iv at h1
    split at h1
    · cases h1
    · split at h1
      · split at h1
        · split at h1
          · cases h1
          · rename_i hcond
            cases h1
            rw [strBytes_length]
            omega
        · cases h1
      · cases h1
  · have hred := get_iv_of_json received2 b2 p2 json2 h2j
    rw [hred]
    simp [h2g, Json.asStr, h2l]

/-- Witness for C7: a concrete 24-character `iv` accepted and a concrete
3-character `iv` rejected with the size error. -/
theorem claim7_witness :
    (strBytes "u5kIzo0m_d2PjI4mu5kIzo0m").length = 24 ∧
    Message.get_iv [125] (fun _ => .error .SerializationError)
        (fun _ => .ok (.obj [("iv", .str "abc")]))
        = .error (.Generic ("IV [nonce] size is incorrect: " ++ toString "abc".length)) :=
  claim7_get_iv [123] (fun _ => .error .SerializationError)
    (fun _ => .ok (.obj [("iv", .str "u5kIzo0m_d2PjI4mu5kIzo0m")]))
    (strBytes "u5kIzo0m_d2PjI4mu5kIzo0m") rfl
    [125] (fun _ => .error .SerializationError) (fun _ => .ok (.obj [("iv", .str "abc")]))
    (.obj [("iv", .str "abc")]) "abc" rfl rfl (by decide)

/-- A plain message whose `typ` header was promoted to
`application/didcomm-encrypted+json` by the `typ` setter, without any
encryption. -/
def exC8 : Message := Message.new.typ .DidCommJwe

/-- C8 counterexample: `receive ∘ as_raw_json` is **not** the identity for
every message, and does not always return without key material: a plain
message whose `typ` was set to `DidCommJwe` serializes to plain JSON that
the type sniffer classifies as encrypted, so `receive` with no keys fails
with the missing-recipient-key error instead of returning the message. -/
theorem claim8_counterexample :
    Message.receive exC8.as_raw_json none none none exRjwe exVal exSer exDec
        = .error (.Generic "missing encryption recipient private key") := rfl

/-- C8 as amended: for every message whose `typ` is neither `DidCommJwe`
nor `DidCommJws` and whose two (unserialized) flat-serialization flags are
`false`, feeding `as_raw_json` into `receive` with no key material returns
the message unchanged, for every behaviour of the external collaborators. -/
theorem claim8_amended (m : Message)
    (rjwe : Wire → List Nat → Option (List Nat) → Except Error Wire)
    (validator : SignatureAlgorithm → ValidationMethod) (ser : JwmHeader → List Nat)
    (dec : List Nat → Except Error Message)
    (h1 : m.jwm_header.typ ≠ .DidCommJwe) (h2 : m.jwm_header.typ ≠ .DidCommJws)
    (h3 : m.serialize_flat_jwe = false) (h4 : m.serialize_flat_jws = false) :
    Message.receive m.as_raw_json none none none rjwe validator ser dec = .ok m := by
  have hview : ({ m with serialize_flat_jwe := false, serialize_flat_jws := false } : Message)
      = m := by
    cases m
    simp_all
  unfold Message.receive Message.as_raw_json get_message_type
  rw [hview]
  simp [h1, h2]

/-- Witness for C8 as amended at the default message. -/
theorem claim8_witness :
    Message.receive Message.new.as_raw_json none none none exRjwe exVal exSer exDec
        = .ok Message.new :=
  claim8_amended Message.new exRjwe exVal exSer exDec (by decide) (by decide) rfl rfl

/-- Nonce lengths under which an encryptor closure cannot reach a panicking
fixed-size conversion. -/
def nonceFits : CryptoAlgorithm → List Nat → Prop
  | .XC20P, n => n.length = 24
  | .A256GCM, n => 12 ≤ n.length
  | .A256CBC, _ => True

set_option maxRecDepth 100000 in
/-- The generated CEK is 32 bytes long. -/
theorem genCek_length : genCek.length = 32 := by decide

/-- A 24-byte nonce fits every algorithm (XC20P exactly, A256GCM by
truncation, A256CBC checks inside the closure). -/
theorem nonceFits_of_24 (alg : CryptoAlgorithm) (n : List Nat) (h : n.length = 24) :
    nonceFits alg n := by
  cases alg <;> simp [nonceFits, h]

/-- With a 32-byte key and a fitting nonce, no encryptor closure panics. -/
theorem encryptor_ne_panic (alg : CryptoAlgorithm) (n k msg aad : List Nat)
    (hk : k.length = 32) (hn : nonceFits alg n) :
    alg.encryptor n k msg aad ≠ .panic := by
  cases alg
  · simp only [nonceFits] at hn
    show xc20pEncryptor n k msg aad ≠ .panic
    unfold xc20pEncryptor
    have hcn : check_nonce n 24 = .ok () := by simp [check_nonce, hn]
    rw [hcn, if_neg (by omega), if_neg (by omega)]
    simp
  · simp only [nonceFits] at hn
    show a256gcmEncryptor n k msg aad ≠ .panic
    unfold a256gcmEncryptor
    have hcn : check_nonce n 12 = .ok () := by simp [check_nonce]; omega
    rw [hcn, if_neg (by omega)]
    simp
  · show a256cbcEncryptor n k msg aad ≠ .panic
    unfold a256cbcEncryptor
    rw [if_neg (by omega)]
    by_cases h2 : n.length ≠ 16
    · rw [if_pos h2]; simp
    · rw [if_neg h2]; simp

/-- `Message::encrypt` panics only if its cypher closure does. -/
theorem encryptStep_ne_panic (m : Message) (cypher : SymmetricCypherMethod)
    (key n p a : List Nat) (h : cypher n key p a ≠ .panic) :
    m.encryptStep cypher key n p a ≠ .panic := by
  unfold Message.encryptStep
  split <;> simp_all

/-- `Message::seal` never panics when the nonce fits the algorithm selected
by the message header (the CEK it encrypts with is always 32 bytes). -/
theorem seal_ne_panic (m : Message) (k : List Nat)
    (pks : Option (List (Option (List Nat)))) (f : EncryptCekFn) (n p a : List Nat)
    (h : ∀ alg, get_crypter_from_header m.jwm_header = .ok alg → nonceFits alg n) :
    m.seal k pks f n p a ≠ .panic := by
  intro hpan
  simp only [Message.seal] at hpan
  split at hpan
  · cases hpan
  · split at hpan
    · cases hpan
    · split at hpan
      · cases hpan
      · split at hpan
        · cases hpan
        · split at hpan
          · cases hpan
          · split at hpan
            · cases hpan
            · rename_i alg heqalg
              exact absurd hpan (encryptStep_ne_panic _ _ _ _ _ _
                (encryptor_ne_panic alg n genCek p a genCek_length (h alg heqalg)))

set_option maxRecDepth 2000 in
/-- C9: `routed_by` and `seal_pre_encrypted` read `to[0]` without an
emptiness check.  (a) With a non-empty `to`, `seal_pre_encrypted` never
panics; (b) with an empty `to` and no preset `recipients` it panics rather
than returning `NoJweRecipient`; (c) with a non-empty `to` (and 24-byte
nonces for the two seals, so the AEAD conversions cannot panic either)
`routed_by` never panics; (d) with an empty `to` — as soon as the header's
algorithm parses, which happens before the index — `routed_by` panics
rather than returning `NoJweRecipient`. -/
theorem claim9_index_totality
    (ma : Message) (ca : List Nat) (ha : ma.didcomm_header.to_ ≠ [])
    (mb : Message) (cb : List Nat) (hb : mb.didcomm_header.to_ = [])
    (hbr : mb.recipients = none)
    (mc : Message) (kc : List Nat) (pksc : Option (List (Option (List Nat))))
    (mdidc : String) (mpkc : Option (List Nat)) (fc : EncryptCekFn) (sjc : Jwe → List Nat)
    (n1 p1 a1 n2 p2 a2 : List Nat) (hc : mc.didcomm_header.to_ ≠ [])
    (hn1 : n1.length = 24) (hn2 : n2.length = 24)
    (md : Message) (kd : List Nat) (pksd : Option (List (Option (List Nat))))
    (mdidd : String) (mpkd : Option (List Nat)) (fd : EncryptCekFn) (sjd : Jwe → List Nat)
    (e1 q1 b1 e2 q2 b2 : List Nat) (hd : md.didcomm_header.to_ = [])
    (algd : CryptoAlgorithm) (hdalg : get_crypter_from_header md.jwm_header = .ok algd) :
    ma.seal_pre_encrypted ca ≠ .panic ∧
    mb.seal_pre_encrypted cb = .panic ∧
    mc.routed_by kc pksc mdidc mpkc fc sjc n1 p1 a1 n2 p2 a2 ≠ .panic ∧
    md.routed_by kd pksd mdidd mpkd fd sjd e1 q1 b1 e2 q2 b2 = .panic := by
  refine ⟨?_, ?_, ?_, ?_⟩
  · simp only [Message.seal_pre_encrypted]
    split
    · split
      · rename_i hnil
        exact absurd hnil ha
      · simp
    · simp
  · simp [Message.seal_pre_encrypted, hbr, hb]
  · simp only [Message.routed_by]
    split
    · simp
    · split
      · rename_i hnil
        exact absurd hnil hc
      · split
        · simp
        · rename_i heqseal
          exact absurd heqseal
            (seal_ne_panic _ _ _ _ _ _ _ (fun alg' _ => nonceFits_of_24 alg' n1 hn1))
        · exact seal_ne_panic _ _ _ _ _ _ _
            (fun alg' _ => nonceFits_of_24 alg' n2 hn2)
  · simp [Message.routed_by, hdalg, hd]

/-- Witness for C9: a plain empty-`to` message panics in
`seal_pre_encrypted`, and an empty-`to` message with a parsing algorithm
header panics in `routed_by`. -/
theorem claim9_witness :
    Message.new.seal_pre_encrypted [] = .panic ∧
    (Message.new.as_jwe .XC20P none).routed_by (List.replicate 32 0) none "did:m" none
      exCek exSerJwe (List.replicate 24 0) [1] [] (List.replicate 24 0) [2] [] = .panic :=
  ⟨(claim9_index_totality
      (Message.new.to_ ["did:a"]) [] (by decide)
      Message.new [] rfl rfl
      exSealMsg (List.replicate 32 0) none "did:m" none exCek exSerJwe
      (List.replicate 24 0) [1] [] (List.replicate 24 0) [2] [] (by decide)
      (by simp) (by simp)
      (Message.new.as_jwe .XC20P none) (List.replicate 32 0) none "did:m" none exCek exSerJwe
      (List.replicate 24 0) [1] [] (List.replicate 24 0) [2] [] rfl .XC20P rfl).2.1,
   (claim9_index_totality
      (Message.new.to_ ["did:a"]) [] (by decide)
      Message.new [] rfl rfl
      exSealMsg (List.replicate 32 0) none "did:m" none exCek exSerJwe
      (List.replicate 24 0) [1] [] (List.replicate 24 0) [2] [] (by decide)
      (by simp) (by simp)
      (Message.new.as_jwe .XC20P none) (List.replicate 32 0) none "did:m" none exCek exSerJwe
      (List.replicate 24 0) [1] [] (List.replicate 24 0) [2] [] rfl .XC20P rfl).2.2.2⟩

/-- C10: the XC20P closures are total only for 24-byte nonces — the guard
`check_nonce` rejects only shorter nonces with `PlugCryptoFailure`, while a
longer nonce reaches `XNonce::from_slice`, whose failure is a panic, not an
`Error`; A256GCM instead truncates any nonce of at least 12 bytes to its
first 12 bytes (`&nonce[..12]`), so encryptor and decrypter agree with
their nonce-truncated applications. -/
theorem claim10_nonce_handling
    (n1 k1 m1 a1 : List Nat) (h1 : n1.length < 24)
    (n2 k2 m2 a2 : List Nat) (h2 : 24 < n2.length)
    (n3 k3 m3 a3 : List Nat) (h3 : 12 ≤ n3.length) :
    (CryptoAlgorithm.XC20P.encryptor n1 k1 m1 a1 = .err .PlugCryptoFailure ∧
     CryptoAlgorithm.XC20P.decrypter n1 k1 m1 a1 = .err .PlugCryptoFailure) ∧
    (CryptoAlgorithm.XC20P.encryptor n2 k2 m2 a2 = .panic ∧
     CryptoAlgorithm.XC20P.decrypter n2 k2 m2 a2 = .panic) ∧
    (CryptoAlgorithm.A256GCM.encryptor n3 k3 m3 a3
        = CryptoAlgorithm.A256GCM.encryptor (n3.take 12) k3 m3 a3 ∧
     CryptoAlgorithm.A256GCM.decrypter n3 k3 m3 a3
        = CryptoAlgorithm.A256GCM.decrypter (n3.take 12) k3 m3 a3) := by
  have htk : (n3.take 12).length = 12 := by simp; omega
  have hcn3 : check_nonce n3 12 = .ok () := by simp [check_nonce]; omega
  have hcn3t : check_nonce (n3.take 12) 12 = .ok () := by simp [check_nonce, htk]
  have hcn2 : check_nonce n2 24 = .ok () := by simp [check_nonce]; omega
  refine ⟨⟨?_, ?_⟩, ⟨?_, ?_⟩, ⟨?_, ?_⟩⟩
  · show xc20pEncryptor n1 k1 m1 a1 = .err .PlugCryptoFailure
    unfold xc20pEncryptor
    simp [check_nonce, h1]
  · show xc20pDecrypter n1 k1 m1 a1 = .err .PlugCryptoFailure
    unfold xc20pDecrypter
    simp [check_nonce, h1]
  · show xc20pEncryptor n2 k2 m2 a2 = .panic
    unfold xc20pEncryptor
    rw [hcn2, if_pos (by omega)]
  · show xc20pDecrypter n2 k2 m2 a2 = .panic
    unfold xc20pDecrypter
    rw [hcn2]
    by_cases hkey : k2.length ≠ 32
    · rw [if_pos hkey]
    · rw [if_neg hkey, if_pos (by omega)]
  · show a256gcmEncryptor n3 k3 m3 a3 = a256gcmEncryptor (n3.take 12) k3 m3 a3
    unfold a256gcmEncryptor
    rw [hcn3, hcn3t]
    simp [List.take_take]
  · show a256gcmDecrypter n3 k3 m3 a3 = a256gcmDecrypter (n3.take 12) k3 m3 a3
    unfold a256gcmDecrypter
    rw [hcn3, hcn3t]
    simp [List.take_take]

/-- Witness for C10 at concrete nonces of lengths 0, 25 and 13. -/
theorem claim10_witness :
    (CryptoAlgorithm.XC20P.encryptor [] [] [] [] = .err .PlugCryptoFailure ∧
     CryptoAlgorithm.XC20P.decrypter [] [] [] [] = .err .PlugCryptoFailure) ∧
    (CryptoAlgorithm.XC20P.encryptor (List.replicate 25 0) [] [] [] = .panic ∧
     CryptoAlgorithm.XC20P.decrypter (List.replicate 25 0) [] [] [] = .panic) ∧
    (CryptoAlgorithm.A256GCM.encryptor (List.replicate 13 3) [] [] []
        = CryptoAlgorithm.A256GCM.encryptor ((List.replicate 13 3).take 12) [] [] [] ∧
     CryptoAlgorithm.A256GCM.decrypter (List.replicate 13 3) [] [] []
        = CryptoAlgorithm.A256GCM.decrypter ((List.replicate 13 3).take 12) [] [] []) :=
  claim10_nonce_handling [] [] [] [] (by decide) (List.replicate 25 0) [] [] [] (by simp)
    (List.replicate 13 3) [] [] [] (by simp)

end Didcomm
